import Mathlib

/-!
Verification of the command dispatch and transcript-mutation core of
`gptme/commands.py`: the directive parser, the per-command handlers of
`handle_cmd`, the edit-session retry loop, and the replay engine.

The embedding is shallow: `handle_cmd` becomes a pure function from the raw
command string, the transcript state and an oracle of the external
collaborators (shell/python executors, the interactive prompt, the
filesystem, the editor round-trips) to a result record collecting the final
transcript, the messages yielded by the generator, the lines printed and the
other external effects.
-/

/-- A message role, per the data model (`user`, `assistant`, `system`). -/
inductive Role where
  | user
  | assistant
  | system
deriving DecidableEq, Repr

/-- A transcript message: role, content and the hidden flag (`m.hide`). -/
structure Message where
  role : Role
  content : String
  hide : Bool
deriving DecidableEq, Repr

/-- Modelled from the spec: the `LogManager` transcript collaborator (its
implementation is outside `commands.py`); it carries the ordered message
list `log.log`. -/
structure LogManager where
  log : List Message
deriving DecidableEq, Repr

/-- Modelled from the spec: `LogManager.undo(n)` removes the last `n`
messages of the transcript (the `quiet` flag only suppresses user-facing
output and does not change the state effect). -/
def LogManager.undo (l : LogManager) (n : Nat) : LogManager :=
  ⟨l.log.take (l.log.length - n)⟩

/-- Modelled from the spec: the directive marker character `CMDFIX` from
`constants.py` (not under `src/`), the single configurable command prefix
used by the dispatcher; `"/"` as hardcoded in `execute_cmd`. -/
def CMDFIX : String := "/"

/-- Python `s.lstrip(chars)`: drop every leading character of `s` that
occurs in `chars`. -/
def pyLstrip (s : String) (chars : String) : String :=
  ⟨s.toList.dropWhile (fun c => chars.toList.contains c)⟩

/-- Python `s.split(sep)` for a single-character separator, on char lists:
keeps empty fields, and the split of the empty string is `[[]]`. -/
def pySplitChars (sep : Char) : List Char → List (List Char)
  | [] => [[]]
  | c :: cs =>
    let r := pySplitChars sep cs
    if c = sep then [] :: r
    else
      match r with
      | [] => [[c]]
      | h :: t => (c :: h) :: t

/-- Python `s.split(" ")`, as used by `handle_cmd` to separate the command
name from its arguments. -/
def pySplit (s : String) : List String :=
  (pySplitChars ' ' s.toList).map (fun l => ⟨l⟩)

/-- Python `s.isdigit()` restricted to ASCII: nonempty and all characters
are decimal digits. -/
def pyIsdigit (s : String) : Bool :=
  !s.toList.isEmpty && s.toList.all (fun c => c.isDigit)

/-- Python `int(s)` on a digits-only string. -/
def pyInt (s : String) : Nat :=
  s.toList.foldl (fun n c => 10 * n + (c.toNat - 48)) 0

/-- Python `s[:1]`, the first character of `s` as a (possibly empty)
string. -/
def firstChar (s : String) : String :=
  ⟨s.toList.take 1⟩

/-- Modelled from the spec: one round of the edit-session loop — the parse
outcome (`toml_to_msgs`) of the document returned by
`edit_text_with_editor`, and, for a failed parse, whether a
keyboard interrupt arrives during the one-second pause that follows. -/
inductive EditAttempt where
  | success (msgs : List Message)
  | failure (err : String) (interrupted : Bool)
deriving DecidableEq, Repr

/-- Modelled from the spec: the external collaborators invoked by
`handle_cmd` (execution tools, summarizer, context generator, interactive
prompt queue, filesystem, code-block scan, editor round-trips), exposed as
oracles. -/
structure Env where
  inputs : List String
  fileContents : String → String
  pathExists : String → Bool
  executeShell : String → Bool → List Message
  executePython : String → Bool → List Message
  executeMsg : Message → Bool → List Message
  genContextMsg : Message
  summarizeFn : List Message → String
  prepareMessages : List Message → List Message
  getLastCodeBlock : List Message → Option String
  editAttempts : List EditAttempt

/-- The observable outcome of handling one command: the final transcript,
the messages yielded by the generator (which `execute_cmd` appends), the
lines printed, the messages printed via `print_msg`, the files written, the
number of `log.write()` persists, whether `sys.exit` ran, the rename/fork
targets, and the `(message, ask)` calls made to `execute_msg`. -/
structure CmdResult where
  log : LogManager
  yielded : List Message
  printed : List String
  printedMsgs : List Message
  filesWritten : List (String × String)
  persists : Nat
  exited : Bool
  renamedTo : Option String
  forkedTo : Option String
  executedMsgs : List (Message × Bool)
  renderedLog : Option Bool
deriving DecidableEq, Repr

/-- A result with the given transcript and no other effects. -/
def CmdResult.base (log : LogManager) : CmdResult :=
  ⟨log, [], [], [], [], 0, false, none, none, [], none⟩

/-- The static command registry `action_descriptions` from `commands.py`,
in source (insertion) order: command name paired with its description. -/
def action_descriptions : List (String × String) :=
  [("continue", "Continue response"),
   ("undo", "Undo the last action"),
   ("log", "Show the conversation log"),
   ("edit", "Edit previous messages"),
   ("rename", "Rename the conversation"),
   ("fork", "Create a copy of the conversation with a new name"),
   ("summarize", "Summarize the conversation so far"),
   ("load", "Load a file"),
   ("save", "Save the most recent code block to a file"),
   ("shell", "Execute a shell command"),
   ("python", "Execute a Python command"),
   ("replay", "Re-execute past commands in the conversation (does not store output in log)"),
   ("impersonate", "Impersonate the assistant"),
   ("help", "Show this help message"),
   ("exit", "Exit the program")]

/-- The `while not res` retry loop of the `edit` command, driven by the
oracle list of editor/parse attempts: a failed parse prints the error and
(unless interrupted during the pause) retries; an interrupt yields a single
system message and aborts; a parse that returns a nonempty message list is
truthy, ends the loop, replaces the transcript with the reversed parsed
sequence and persists once, while a parse that returns an empty list is
falsy in `while not res` and silently re-invokes the editor. Returns the
final transcript, the yielded messages, the printed lines and the persist
count. -/
def editLoop (log : LogManager) : List EditAttempt → LogManager × List Message × List String × Nat
  | [] => (log, [], [], 0)
  | .success msgs :: rest =>
    if msgs.isEmpty then editLoop log rest
    else (⟨msgs.reverse⟩, [], ["Applied edited messages, write /log to see the result"], 1)
  | .failure err true :: _ =>
    (log, [⟨Role.system, "Interrupted", false⟩], ["Failed to parse TOML: " ++ err], 0)
  | .failure err false :: rest =>
    let r := editLoop log rest
    (r.1, r.2.1, ("Failed to parse TOML: " ++ err) :: r.2.2.1, r.2.2.2)

/-- `handle_cmd` from `commands.py`: strip every leading marker character,
split on single spaces into name and arguments, and dispatch on the name
(the branch order mirrors the source `match`). -/
def handle_cmd (cmd : String) (log : LogManager) (no_confirm : Bool) (env : Env) : CmdResult :=
  let stripped := pyLstrip cmd CMDFIX
  let parts := pySplit stripped
  let name := parts.headD ""
  let args := parts.tail
  if name = "bash" ∨ name = "sh" ∨ name = "shell" then
    { CmdResult.base log with
        yielded := env.executeShell (" ".intercalate args) (!no_confirm) }
  else if name = "python" ∨ name = "py" then
    { CmdResult.base log with
        yielded := env.executePython (" ".intercalate args) (!no_confirm) }
  else if name = "continue" then
    CmdResult.base (log.undo 1)
  else if name = "log" then
    { CmdResult.base (log.undo 1) with renderedLog := some (args.contains "--hidden") }
  else if name = "rename" then
    let log := log.undo 1
    let new_name := match args with
      | [] => env.inputs.headD ""
      | a :: _ => a
    { CmdResult.base log with
        renamedTo := some new_name,
        printed := ["Renamed conversation to " ++ new_name] }
  else if name = "fork" then
    let new_name := match args with
      | [] => env.inputs.headD ""
      | a :: _ => a
    { CmdResult.base log with forkedTo := some new_name }
  else if name = "summarize" then
    let msgs := (env.prepareMessages log.log).filter (fun m => !m.hide)
    { CmdResult.base log with printed := ["Summary: " ++ env.summarizeFn msgs] }
  else if name = "edit" then
    let log := log.undo 1
    let r := editLoop log env.editAttempts
    { CmdResult.base r.1 with
        yielded := r.2.1, printed := r.2.2.1, persists := r.2.2.2 }
  else if name = "context" then
    { CmdResult.base log with yielded := [env.genContextMsg] }
  else if name = "undo" then
    let log := log.undo 1
    let n := match args with
      | [] => 1
      | a :: _ => if pyIsdigit a then pyInt a else 1
    CmdResult.base (log.undo n)
  else if name = "load" then
    let filename := match args with
      | [] => env.inputs.headD ""
      | a :: _ => a
    let contents := env.fileContents filename
    { CmdResult.base log with
        yielded := [⟨Role.system, "# filename: " ++ filename ++ "\n\n" ++ contents, false⟩] }
  else if name = "save" then
    let log := log.undo 1
    match env.getLastCodeBlock log.log with
    | none => { CmdResult.base log with printed := ["No code block found"] }
    | some code =>
      if code = "" then
        { CmdResult.base log with printed := ["No code block found"] }
      else
      let fi : String × List String := match args with
        | [] => (env.inputs.headD "", env.inputs.tail)
        | a :: _ => (a, env.inputs)
      let filename := fi.1
      if env.pathExists filename then
        let ans := fi.2.headD ""
        if ans.toLower = "y" then
          { CmdResult.base log with
              filesWritten := [(filename, code)],
              printed := ["Saved code block to " ++ filename] }
        else
          CmdResult.base log
      else
        { CmdResult.base log with
            filesWritten := [(filename, code)],
            printed := ["Saved code block to " ++ filename] }
  else if name = "exit" then
    { CmdResult.base log with exited := true }
  else if name = "replay" then
    let log := log.undo 1
    let assistants := log.log.filter (fun m => m.role == Role.assistant)
    { CmdResult.base log with
        printed := ["Replaying conversation..."],
        executedMsgs := assistants.map (fun m => (m, true)),
        printedMsgs := (assistants.map (fun m => env.executeMsg m true)).flatten }
  else if name = "impersonate" then
    let content := match args with
      | [] => env.inputs.headD ""
      | _ :: _ => " ".intercalate args
    let msg : Message := ⟨Role.assistant, content, false⟩
    { CmdResult.base log with
        yielded := msg :: env.executeMsg msg (!no_confirm),
        executedMsgs := [(msg, !no_confirm)] }
  else
    let note := if (log.log.getLast?).map Message.content ≠ some (CMDFIX ++ "help") then
        ["Unknown command"]
      else []
    let log := log.undo 1
    { CmdResult.base log with
        persists := 1,
        printed := note ++ "Available commands:" ::
          action_descriptions.map (fun p => "  " ++ p.1 ++ ": " ++ p.2) }

/-- `execute_cmd` from `commands.py`: a user message is dispatched as a
command exactly when its first character is the marker; the messages the
handler yields are appended to the transcript, and the boolean reports
whether a command ran. -/
def execute_cmd (msg : Message) (log : LogManager) (env : Env) : Bool × CmdResult :=
  if firstChar msg.content = "/" then
    let r := handle_cmd msg.content log true env
    (true, { r with log := ⟨r.log.log ++ r.yielded⟩ })
  else
    (false, CmdResult.base log)

/-- A fixed concrete oracle environment used by concrete evaluations. -/
def env0 : Env :=
  ⟨[], fun _ => "", fun _ => false, fun _ _ => [], fun _ _ => [], fun _ _ => [],
   ⟨Role.system, "ctx", false⟩, fun _ => "", fun l => l, fun _ => none, []⟩

example : pySplit "undo 2" = ["undo", "2"] := by decide
example : pyLstrip "//shell ls -l" CMDFIX = "shell ls -l" := by decide
example : pyIsdigit "23" = true ∧ pyIsdigit "-2" = false ∧ pyIsdigit "" = false := by decide
example : pyInt "23" = 23 := by decide
example :
    (handle_cmd "/undo 2" ⟨[⟨Role.user, "a", false⟩, ⟨Role.assistant, "b", false⟩,
      ⟨Role.user, "c", false⟩, ⟨Role.user, "/undo 2", false⟩]⟩ true env0).log.log =
    [⟨Role.user, "a", false⟩] := by decide

theorem pyLstrip_marker (s : String) :
    pyLstrip (CMDFIX ++ s) CMDFIX = pyLstrip s CMDFIX := by
  cases s with
  | mk data =>
    simp [pyLstrip, CMDFIX, String.toList, String.data_append,
      show ("/").data = ['/'] from rfl, List.dropWhile]

/-- C10: stripping the marker strips every leading occurrence, so a command
written with one or with two leading marker characters is handled
identically. -/
theorem handle_cmd_marker_collapse (s : String) (log : LogManager) (nc : Bool) (env : Env) :
    handle_cmd (CMDFIX ++ s) log nc env = handle_cmd (CMDFIX ++ (CMDFIX ++ s)) log nc env := by
  simp only [handle_cmd, pyLstrip_marker]

/-- C4: replaying passes exactly the assistant messages through
`execute_msg` with confirmation forced on (`ask := true`) and prints the
results, yields nothing, and leaves the transcript with exactly the
messages that preceded the `/replay` directive. -/
theorem replay_preserves_transcript (L : List Message) (d : Message) (nc : Bool) (env : Env) :
    (handle_cmd "/replay" ⟨L ++ [d]⟩ nc env).log.log = L ∧
    (handle_cmd "/replay" ⟨L ++ [d]⟩ nc env).yielded = [] ∧
    (handle_cmd "/replay" ⟨L ++ [d]⟩ nc env).executedMsgs
      = (L.filter (fun m => m.role == Role.assistant)).map (fun m => (m, true)) ∧
    (handle_cmd "/replay" ⟨L ++ [d]⟩ nc env).printedMsgs
      = ((L.filter (fun m => m.role == Role.assistant)).map (fun m => env.executeMsg m true)).flatten ∧
    (handle_cmd "/replay" ⟨L ++ [d]⟩ nc env).log.log.length
      + (handle_cmd "/replay" ⟨L ++ [d]⟩ nc env).yielded.length = L.length := by
  have hp : pySplit (pyLstrip "/replay" CMDFIX) = ["replay"] := by decide
  simp [handle_cmd, hp, LogManager.undo, List.take_left, CmdResult.base]

/-- C6: a user message is dispatched as a directive exactly when the
directive marker occupies input position 0, and a non-directive message
leaves the transcript unchanged with `execute_cmd` returning `false`. -/
theorem execute_cmd_marker_dispatch (msg : Message) (log : LogManager) (env : Env)
    (_hrole : msg.role = Role.user) :
    ((execute_cmd msg log env).1 = true ↔ firstChar msg.content = CMDFIX) ∧
    (firstChar msg.content ≠ CMDFIX →
      (execute_cmd msg log env).1 = false ∧ (execute_cmd msg log env).2.log = log) := by
  unfold execute_cmd
  by_cases hc : firstChar msg.content = "/" <;>
    simp [hc, CMDFIX, CmdResult.base]

theorem execute_cmd_marker_dispatch_witness :
    ((execute_cmd ⟨Role.user, "hello", false⟩ ⟨[]⟩ env0).1 = true ↔
      firstChar "hello" = CMDFIX) ∧
    (firstChar "hello" ≠ CMDFIX →
      (execute_cmd ⟨Role.user, "hello", false⟩ ⟨[]⟩ env0).1 = false ∧
      (execute_cmd ⟨Role.user, "hello", false⟩ ⟨[]⟩ env0).2.log = ⟨[]⟩) :=
  execute_cmd_marker_dispatch ⟨Role.user, "hello", false⟩ ⟨[]⟩ env0 rfl

/-- C5: `fork` and `summarize` never undo: the transcript is exactly as
before, so the triggering directive message (the last transcript entry) is
still present afterwards. -/
theorem fork_summarize_keep_directive (L : List Message) (d : Message) (nc : Bool) (env : Env) :
    (handle_cmd "/fork new" ⟨L ++ [d]⟩ nc env).log = ⟨L ++ [d]⟩ ∧
    (handle_cmd "/summarize" ⟨L ++ [d]⟩ nc env).log = ⟨L ++ [d]⟩ ∧
    d ∈ (handle_cmd "/fork new" ⟨L ++ [d]⟩ nc env).log.log ∧
    d ∈ (handle_cmd "/summarize" ⟨L ++ [d]⟩ nc env).log.log := by
  have hf : pySplit (pyLstrip "/fork new" CMDFIX) = ["fork", "new"] := by decide
  have hs : pySplit (pyLstrip "/summarize" CMDFIX) = ["summarize"] := by decide
  simp [handle_cmd, hf, hs, CmdResult.base]

/-- C2: `undo` first silently undoes its own directive message, then a
digits-only first argument undoes that many additional messages, and any
other first argument (or no argument) undoes exactly one additional
message. -/
theorem undo_cmd_semantics (cmd : String) (args : List String) (log : LogManager)
    (nc : Bool) (env : Env)
    (h : pySplit (pyLstrip cmd CMDFIX) = "undo" :: args) :
    (args = [] → (handle_cmd cmd log nc env).log = (log.undo 1).undo 1) ∧
    (∀ a rest, args = a :: rest → pyIsdigit a = true →
      (handle_cmd cmd log nc env).log = (log.undo 1).undo (pyInt a)) ∧
    (∀ a rest, args = a :: rest → pyIsdigit a = false →
      (handle_cmd cmd log nc env).log = (log.undo 1).undo 1) := by
  refine ⟨?_, ?_, ?_⟩
  · intro ha
    subst ha
    simp [handle_cmd, h, CmdResult.base]
  · intro a rest ha hd
    subst ha
    simp [handle_cmd, h, CmdResult.base, hd]
  · intro a rest ha hd
    subst ha
    simp [handle_cmd, h, CmdResult.base, hd]

/-- A concrete four-message transcript ending in an `/undo 2` directive. -/
def logW : LogManager :=
  ⟨[⟨Role.user, "a", false⟩, ⟨Role.assistant, "b", false⟩, ⟨Role.user, "c", false⟩,
    ⟨Role.user, "/undo 2", false⟩]⟩

theorem undo_cmd_semantics_witness :
    (handle_cmd "/undo 2" logW true env0).log = (logW.undo 1).undo (pyInt "2") :=
  (undo_cmd_semantics "/undo 2" ["2"] logW true env0 (by decide)).2.1 "2" [] rfl (by decide)

/-- The command names recognized by the dispatcher's `match`, aliases
included. -/
def knownNames : List String :=
  ["bash", "sh", "shell", "python", "py", "continue", "log", "rename", "fork",
   "summarize", "edit", "context", "undo", "load", "save", "exit", "replay", "impersonate"]

/-- C7: for a command name outside the handler table, the handler prints
the unknown-command notice exactly when the last transcript entry's content
is not the canonical `/help` text, silently undoes the directive's own
message, persists the transcript once, and prints every registered
command's name and description. -/
theorem unknown_cmd_help (cmd : String) (name : String) (args : List String)
    (L : List Message) (d : Message) (nc : Bool) (env : Env)
    (hp : pySplit (pyLstrip cmd CMDFIX) = name :: args)
    (hn : name ∉ knownNames) :
    (handle_cmd cmd ⟨L ++ [d]⟩ nc env).log.log = L ∧
    (handle_cmd cmd ⟨L ++ [d]⟩ nc env).persists = 1 ∧
    (handle_cmd cmd ⟨L ++ [d]⟩ nc env).printed =
      (if d.content ≠ CMDFIX ++ "help" then ["Unknown command"] else []) ++
      "Available commands:" ::
        action_descriptions.map (fun p => "  " ++ p.1 ++ ": " ++ p.2) := by
  have hb : ∀ s ∈ knownNames, name ≠ s := fun s hs he => hn (he ▸ hs)
  simp [handle_cmd, hp, CmdResult.base, LogManager.undo, List.take_left,
    hb "bash" (by decide), hb "sh" (by decide), hb "shell" (by decide),
    hb "python" (by decide), hb "py" (by decide), hb "continue" (by decide),
    hb "log" (by decide), hb "rename" (by decide), hb "fork" (by decide),
    hb "summarize" (by decide), hb "edit" (by decide), hb "context" (by decide),
    hb "undo" (by decide), hb "load" (by decide), hb "save" (by decide),
    hb "exit" (by decide), hb "replay" (by decide), hb "impersonate" (by decide)]

theorem unknown_cmd_help_witness :
    (handle_cmd "/frobnicate" ⟨[] ++ [⟨Role.user, "/frobnicate", false⟩]⟩ true env0).log.log = [] ∧
    (handle_cmd "/frobnicate" ⟨[] ++ [⟨Role.user, "/frobnicate", false⟩]⟩ true env0).persists = 1 ∧
    (handle_cmd "/frobnicate" ⟨[] ++ [⟨Role.user, "/frobnicate", false⟩]⟩ true env0).printed =
      (if (⟨Role.user, "/frobnicate", false⟩ : Message).content ≠ CMDFIX ++ "help" then
        ["Unknown command"] else []) ++
      "Available commands:" ::
        action_descriptions.map (fun p => "  " ++ p.1 ++ ": " ++ p.2) :=
  unknown_cmd_help "/frobnicate" "frobnicate" [] [] ⟨Role.user, "/frobnicate", false⟩ true env0
    (by decide) (by decide)

theorem editLoop_all_failures (lm : LogManager) (errs : List String) :
    editLoop lm (errs.map (fun e => EditAttempt.failure e false)) =
      (lm, [], errs.map (fun e => "Failed to parse TOML: " ++ e), 0) := by
  induction errs with
  | nil => rfl
  | cons e es ih => simp [editLoop, ih]

theorem editLoop_failures_prepend (lm : LogManager) (errs : List String)
    (rest : List EditAttempt) :
    editLoop lm (errs.map (fun e => EditAttempt.failure e false) ++ rest) =
      ((editLoop lm rest).1, (editLoop lm rest).2.1,
        errs.map (fun e => "Failed to parse TOML: " ++ e) ++ (editLoop lm rest).2.2.1,
        (editLoop lm rest).2.2.2) := by
  induction errs with
  | nil => rfl
  | cons e es ih => simp [editLoop, ih]

/-- C3: any number of failed edit-document parses leaves the transcript
untouched (no mutation, no persist), as does a parse producing an empty
message list (falsy in `while not res`, so the loop re-invokes the editor
without replacing or persisting); the first parse producing a nonempty
message list replaces the transcript wholesale with the parsed sequence
reversed back to chronological order and persists it exactly once. -/
theorem edit_atomic_replace (log : LogManager) (nc : Bool) (env : Env)
    (errs : List String) (m : Message) (ms : List Message) :
    (handle_cmd "/edit" log nc
      { env with editAttempts := errs.map (fun e => EditAttempt.failure e false) }).log
      = log.undo 1 ∧
    (handle_cmd "/edit" log nc
      { env with editAttempts := errs.map (fun e => EditAttempt.failure e false) }).persists
      = 0 ∧
    (handle_cmd "/edit" log nc
      { env with editAttempts := errs.map (fun e => EditAttempt.failure e false)
          ++ [EditAttempt.success []] }).log
      = log.undo 1 ∧
    (handle_cmd "/edit" log nc
      { env with editAttempts := errs.map (fun e => EditAttempt.failure e false)
          ++ [EditAttempt.success []] }).persists
      = 0 ∧
    (handle_cmd "/edit" log nc
      { env with editAttempts := errs.map (fun e => EditAttempt.failure e false)
          ++ [EditAttempt.success (m :: ms)] }).log.log
      = (m :: ms).reverse ∧
    (handle_cmd "/edit" log nc
      { env with editAttempts := errs.map (fun e => EditAttempt.failure e false)
          ++ [EditAttempt.success (m :: ms)] }).persists
      = 1 := by
  have hp : pySplit (pyLstrip "/edit" CMDFIX) = ["edit"] := by decide
  simp [handle_cmd, hp, CmdResult.base, editLoop_all_failures, editLoop_failures_prepend,
    editLoop]

/-- C9: an interrupt during the pause after a failed edit-document parse
makes the handler yield exactly one system message noting the interruption
and abort: the transcript stays at its post-self-retraction state and is
not persisted. -/
theorem edit_interrupt_aborts (log : LogManager) (nc : Bool) (env : Env)
    (errs : List String) (e : String) (rest : List EditAttempt) :
    (handle_cmd "/edit" log nc
      { env with editAttempts := errs.map (fun x => EditAttempt.failure x false)
          ++ EditAttempt.failure e true :: rest }).yielded
      = [⟨Role.system, "Interrupted", false⟩] ∧
    (handle_cmd "/edit" log nc
      { env with editAttempts := errs.map (fun x => EditAttempt.failure x false)
          ++ EditAttempt.failure e true :: rest }).log
      = log.undo 1 ∧
    (handle_cmd "/edit" log nc
      { env with editAttempts := errs.map (fun x => EditAttempt.failure x false)
          ++ EditAttempt.failure e true :: rest }).persists
      = 0 := by
  have hp : pySplit (pyLstrip "/edit" CMDFIX) = ["edit"] := by decide
  simp [handle_cmd, hp, CmdResult.base, editLoop_failures_prepend, editLoop]

/-- C8: when `save` finds a (truthy, i.e. nonempty) code block and targets
an existing path, the overwrite prompt's answer is compared
case-insensitively against `"y"`: only then is the file written; any other
answer returns early with nothing written. -/
theorem save_overwrite_confirmation (cmd : String) (filename : String) (log : LogManager)
    (nc : Bool) (env : Env) (code : String)
    (hp : pySplit (pyLstrip cmd CMDFIX) = ["save", filename])
    (hcode : env.getLastCodeBlock (log.undo 1).log = some code)
    (hne : code ≠ "")
    (hex : env.pathExists filename = true) :
    ((env.inputs.headD "").toLower = "y" →
      (handle_cmd cmd log nc env).filesWritten = [(filename, code)]) ∧
    ((env.inputs.headD "").toLower ≠ "y" →
      (handle_cmd cmd log nc env).filesWritten = [] ∧
      (handle_cmd cmd log nc env).log = log.undo 1) := by
  constructor <;> intro hans <;>
    simp only [List.headD_eq_head?_getD] at hans <;>
    simp [handle_cmd, hp, CmdResult.base, hcode, hne, hex, hans]

/-- A concrete oracle where the saved path exists, a code block is found,
and the prompt answers `"n"`. -/
def envSave : Env :=
  ⟨["n"], fun _ => "", fun _ => true, fun _ _ => [], fun _ _ => [], fun _ _ => [],
   ⟨Role.system, "ctx", false⟩, fun _ => "", fun l => l, fun _ => some "print(1)", []⟩

theorem save_overwrite_confirmation_witness :
    ((envSave.inputs.headD "").toLower = "y" →
      (handle_cmd "/save out.txt" logW true envSave).filesWritten = [("out.txt", "print(1)")]) ∧
    ((envSave.inputs.headD "").toLower ≠ "y" →
      (handle_cmd "/save out.txt" logW true envSave).filesWritten = [] ∧
      (handle_cmd "/save out.txt" logW true envSave).log = logW.undo 1) :=
  save_overwrite_confirmation "/save out.txt" "out.txt" logW true envSave "print(1)"
    (by decide) rfl (by decide) rfl

/-- C1 counterexample: `/context` is neither `fork` nor `summarize`, yet
after `handle_cmd` completes, the triggering directive message is still in
the transcript — the `context` handler performs no undo at all. -/
theorem context_keeps_directive_counterexample :
    (⟨Role.user, "/context", false⟩ : Message) ∈
      (handle_cmd "/context" ⟨[⟨Role.user, "/context", false⟩]⟩ true env0).log.log := by
  decide

theorem editLoop_log_of_no_success (lm : LogManager) :
    ∀ (attempts : List EditAttempt),
      (∀ msgs, EditAttempt.success msgs ∉ attempts) → (editLoop lm attempts).1 = lm
  | [], _ => rfl
  | .success msgs :: _, h => absurd (List.mem_cons_self _ _) (h msgs)
  | .failure e true :: _, _ => rfl
  | .failure e false :: rest, h => by
    simpa [editLoop] using
      editLoop_log_of_no_success lm rest fun msgs hm => h msgs (List.mem_cons_of_mem _ hm)

/-- C1 (amended): the silent single-message self-retraction undo is
performed by the `continue`, `log`, `rename`, `edit`, `undo`, `save`,
`replay` and unknown-command handlers, whose resulting transcript no
longer holds the final (directive) entry; the `shell`, `python`,
`context`, `load`, `impersonate` and `exit` handlers — besides the
documented `fork` and `summarize` exceptions — leave the transcript, and
hence the triggering directive message, untouched. -/
theorem self_retraction_by_command (L : List Message) (d : Message) (nc : Bool) (env : Env)
    (hedit : ∀ msgs, EditAttempt.success msgs ∉ env.editAttempts) :
    (handle_cmd "/continue" ⟨L ++ [d]⟩ nc env).log.log = L ∧
    (handle_cmd "/log" ⟨L ++ [d]⟩ nc env).log.log = L ∧
    (handle_cmd "/rename x" ⟨L ++ [d]⟩ nc env).log.log = L ∧
    (handle_cmd "/edit" ⟨L ++ [d]⟩ nc env).log.log = L ∧
    (handle_cmd "/undo" ⟨L ++ [d]⟩ nc env).log.log = L.take (L.length - 1) ∧
    (handle_cmd "/save f" ⟨L ++ [d]⟩ nc env).log.log = L ∧
    (handle_cmd "/replay" ⟨L ++ [d]⟩ nc env).log.log = L ∧
    (handle_cmd "/frobnicate" ⟨L ++ [d]⟩ nc env).log.log = L ∧
    (handle_cmd "/shell ls" ⟨L ++ [d]⟩ nc env).log.log = L ++ [d] ∧
    (handle_cmd "/python x" ⟨L ++ [d]⟩ nc env).log.log = L ++ [d] ∧
    (handle_cmd "/context" ⟨L ++ [d]⟩ nc env).log.log = L ++ [d] ∧
    (handle_cmd "/load f" ⟨L ++ [d]⟩ nc env).log.log = L ++ [d] ∧
    (handle_cmd "/impersonate hi" ⟨L ++ [d]⟩ nc env).log.log = L ++ [d] ∧
    (handle_cmd "/exit" ⟨L ++ [d]⟩ nc env).log.log = L ++ [d] ∧
    (handle_cmd "/fork new" ⟨L ++ [d]⟩ nc env).log.log = L ++ [d] ∧
    (handle_cmd "/summarize" ⟨L ++ [d]⟩ nc env).log.log = L ++ [d] := by
  have hu : (⟨L ++ [d]⟩ : LogManager).undo 1 = ⟨L⟩ := by
    simp [LogManager.undo, List.take_left]
  refine ⟨?_, ?_, ?_, ?_, ?_, ?_, ?_, ?_, ?_, ?_, ?_, ?_, ?_, ?_, ?_, ?_⟩
  · have hp : pySplit (pyLstrip "/continue" CMDFIX) = ["continue"] := by decide
    simp [handle_cmd, hp, hu, CmdResult.base]
  · have hp : pySplit (pyLstrip "/log" CMDFIX) = ["log"] := by decide
    simp [handle_cmd, hp, hu, CmdResult.base]
  · have hp : pySplit (pyLstrip "/rename x" CMDFIX) = ["rename", "x"] := by decide
    simp [handle_cmd, hp, hu, CmdResult.base]
  · have hp : pySplit (pyLstrip "/edit" CMDFIX) = ["edit"] := by decide
    simp [handle_cmd, hp, hu, CmdResult.base,
      editLoop_log_of_no_success ⟨L⟩ env.editAttempts hedit]
  · have hp : pySplit (pyLstrip "/undo" CMDFIX) = ["undo"] := by decide
    simp [handle_cmd, hp, hu, CmdResult.base, LogManager.undo]
  · have hp : pySplit (pyLstrip "/save f" CMDFIX) = ["save", "f"] := by decide
    simp only [handle_cmd, hp, hu]
    rcases hc : env.getLastCodeBlock (⟨L⟩ : LogManager).log with _ | code
    · simp [hc, CmdResult.base]
    · simp [hc, CmdResult.base]
      split_ifs <;> simp [CmdResult.base]
  · have hp : pySplit (pyLstrip "/replay" CMDFIX) = ["replay"] := by decide
    simp [handle_cmd, hp, hu, CmdResult.base]
  · have hp : pySplit (pyLstrip "/frobnicate" CMDFIX) = ["frobnicate"] := by decide
    simp [handle_cmd, hp, hu, CmdResult.base]
  · have hp : pySplit (pyLstrip "/shell ls" CMDFIX) = ["shell", "ls"] := by decide
    simp [handle_cmd, hp, CmdResult.base]
  · have hp : pySplit (pyLstrip "/python x" CMDFIX) = ["python", "x"] := by decide
    simp [handle_cmd, hp, CmdResult.base]
  · have hp : pySplit (pyLstrip "/context" CMDFIX) = ["context"] := by decide
    simp [handle_cmd, hp, CmdResult.base]
  · have hp : pySplit (pyLstrip "/load f" CMDFIX) = ["load", "f"] := by decide
    simp [handle_cmd, hp, CmdResult.base]
  · have hp : pySplit (pyLstrip "/impersonate hi" CMDFIX) = ["impersonate", "hi"] := by decide
    simp [handle_cmd, hp, CmdResult.base]
  · have hp : pySplit (pyLstrip "/exit" CMDFIX) = ["exit"] := by decide
    simp [handle_cmd, hp, CmdResult.base]
  · have hp : pySplit (pyLstrip "/fork new" CMDFIX) = ["fork", "new"] := by decide
    simp [handle_cmd, hp, CmdResult.base]
  · have hp : pySplit (pyLstrip "/summarize" CMDFIX) = ["summarize"] := by decide
    simp [handle_cmd, hp, CmdResult.base]

/-- A concrete directive message used as the final transcript entry in
concrete evaluations. -/
def dW : Message := ⟨Role.user, "/x", false⟩

theorem self_retraction_by_command_witness :
    (handle_cmd "/continue" ⟨[] ++ [dW]⟩ true env0).log.log = [] ∧
    (handle_cmd "/log" ⟨[] ++ [dW]⟩ true env0).log.log = [] ∧
    (handle_cmd "/rename x" ⟨[] ++ [dW]⟩ true env0).log.log = [] ∧
    (handle_cmd "/edit" ⟨[] ++ [dW]⟩ true env0).log.log = [] ∧
    (handle_cmd "/undo" ⟨[] ++ [dW]⟩ true env0).log.log
      = ([] : List Message).take (([] : List Message).length - 1) ∧
    (handle_cmd "/save f" ⟨[] ++ [dW]⟩ true env0).log.log = [] ∧
    (handle_cmd "/replay" ⟨[] ++ [dW]⟩ true env0).log.log = [] ∧
    (handle_cmd "/frobnicate" ⟨[] ++ [dW]⟩ true env0).log.log = [] ∧
    (handle_cmd "/shell ls" ⟨[] ++ [dW]⟩ true env0).log.log = [] ++ [dW] ∧
    (handle_cmd "/python x" ⟨[] ++ [dW]⟩ true env0).log.log = [] ++ [dW] ∧
    (handle_cmd "/context" ⟨[] ++ [dW]⟩ true env0).log.log = [] ++ [dW] ∧
    (handle_cmd "/load f" ⟨[] ++ [dW]⟩ true env0).log.log = [] ++ [dW] ∧
    (handle_cmd "/impersonate hi" ⟨[] ++ [dW]⟩ true env0).log.log = [] ++ [dW] ∧
    (handle_cmd "/exit" ⟨[] ++ [dW]⟩ true env0).log.log = [] ++ [dW] ∧
    (handle_cmd "/fork new" ⟨[] ++ [dW]⟩ true env0).log.log = [] ++ [dW] ∧
    (handle_cmd "/summarize" ⟨[] ++ [dW]⟩ true env0).log.log = [] ++ [dW] :=
  self_retraction_by_command [] dW true env0 (fun msgs h => by simp [env0] at h)
